import Mathlib

/-!
# Verification of the drip-publishing core of the TruPath SEO dashboard

Shallow embedding of `src/publisher.py` (the dispatch cycle and the
WordPress delivery client) and of the Work Item Store operations in
`src/database.py` that the cycle uses (`update_page_status`,
`update_live_url`, and the `pages` table schema from `init_database`).

The database functions `get_active_campaigns`, `get_published_count_today`
and `get_next_ready_page` are called by `publisher.py` but are not present
in `src/database.py` (the source marks them "You need to add this getter to
database.py"); likewise the campaigns table is absent.  Those parts are
modelled from the spec and carry a `Modelled from the spec:` doc comment.

SQLite timestamps are modelled as natural numbers; `CURRENT_TIMESTAMP` at
the time of an update is passed in explicitly as a `now` argument.
Nullable columns are `Option`-valued.  The network call performed by
`requests.post` is the environment: its outcome (an HTTP response, or a
raised exception) is an input to the embedded `post_to_wordpress`.
-/

/-- A row of the `pages` table (schema from `init_database` in
`src/database.py`).  Every column of the schema is a field, with SQLite
`NULL`-able columns as `Option`.

The field `destination_id` is *modelled from the spec*: the schema in
`src/database.py` has no owning-destination column, but the getters that
`publisher.py` consumes (`get_next_ready_page(camp['id'])`,
`get_published_count_today(camp['id'])`) are keyed by campaign, and the
spec's WorkItem carries a `destination_id: reference to owning Destination`. -/
structure Page where
  id : Nat
  destination_id : Nat
  city : String
  state : Option String
  keyword : Option String
  page_type : String
  parent_hub_id : Option Nat
  wiki_url : Option String
  status : String
  serp_data : Option String
  html_content : Option String
  live_url : Option String
  created_at : Nat
  updated_at : Nat
  deriving Repr, DecidableEq

/-- Modelled from the spec: a row of the Destination Registry (the
campaigns table is absent from `src/`).  Fields are the ones `publisher.py`
reads from a campaign record (`id`, `campaign_name`, `drip_rate_per_day`,
`wp_url`, `wp_username`, `wp_app_password`) plus the spec's activation
flag (§3 Destination: "whether this destination currently participates in
dispatch cycles"). -/
structure Campaign where
  id : Nat
  campaign_name : String
  drip_rate_per_day : Nat
  wp_url : String
  wp_username : String
  wp_app_password : String
  active : Bool
  deriving Repr, DecidableEq

/-- Outcome of the `requests.post` call inside `post_to_wordpress`:
either a raised exception (connection error, timeout, ...), or an HTTP
response with a status code and a body.  The body's JSON parse is
`none` when `response.json()` would raise (unparsable body), and
otherwise the parsed JSON object as a key/value list. -/
inductive HttpOutcome where
  | exn : HttpOutcome
  | resp : Nat → Option (List (String × String)) → HttpOutcome
  deriving Repr, DecidableEq

/-- `post_to_wordpress` from `src/publisher.py` (lines 17-51), restricted
to its observable result: the request construction (URL, auth header,
post data) has no effect on the Work Item Store, so the embedding takes
the outcome of the network call and interprets it exactly as the source's
`try` block does:

* a 201 response whose body parses returns `(True, body.get('link'))`;
* a 201 response whose body does not parse raises inside the `try`,
  is caught, and returns `(False, None)`;
* any other status code returns `(False, None)`;
* a raised exception is caught and returns `(False, None)`. -/
def post_to_wordpress : HttpOutcome → Bool × Option String
  | .exn => (false, none)
  | .resp code body =>
      if code = 201 then
        match body with
        | some kvs => (true, kvs.lookup "link")
        | none => (false, none)
      else (false, none)

/-- `update_page_status` from `src/database.py` (lines 200-209):
`UPDATE pages SET status = ?, updated_at = CURRENT_TIMESTAMP WHERE id = ?`. -/
def update_page_status (db : List Page) (page_id : Nat) (status : String)
    (now : Nat) : List Page :=
  db.map fun p =>
    if p.id = page_id then { p with status := status, updated_at := now } else p

/-- `update_live_url` from `src/database.py` (lines 236-245):
`UPDATE pages SET live_url = ?, status = 'Published',
updated_at = CURRENT_TIMESTAMP WHERE id = ?`.  The caller in
`publisher.py` may pass `None` (a 201 body with no `link` key), so the
URL argument is an `Option`. -/
def update_live_url (db : List Page) (page_id : Nat) (live_url : Option String)
    (now : Nat) : List Page :=
  db.map fun p =>
    if p.id = page_id then
      { p with live_url := live_url, status := "Published", updated_at := now }
    else p

/-- `update_wiki_url` from `src/database.py` (lines 188-197):
`UPDATE pages SET wiki_url = ?, updated_at = CURRENT_TIMESTAMP WHERE id = ?`. -/
def update_wiki_url (db : List Page) (page_id : Nat) (wiki_url : String)
    (now : Nat) : List Page :=
  db.map fun p =>
    if p.id = page_id then { p with wiki_url := some wiki_url, updated_at := now }
    else p

/-- Modelled from the spec: `get_active_campaigns` is called at
`src/publisher.py` line 57 but absent from `src/database.py`.  Per §6,
`list_active_destinations()` returns the ordered sequence of destinations
whose activation flag is set, in registry order. -/
def get_active_campaigns (registry : List Campaign) : List Campaign :=
  registry.filter fun c => c.active

/-- Modelled from the spec: `get_published_count_today` is called at
`src/publisher.py` line 61 but absent from `src/database.py`.  Per §4.1
the Quota Tracker counts the destination's WorkItems whose publish
timestamp falls within `[window_start, now)`, recomputed fresh from the
store on each call.  The only timestamp the store's publish transition
writes is `updated_at`, so the count reads it. -/
def get_published_count_today (db : List Page) (window_start now : Nat)
    (dest_id : Nat) : Nat :=
  (db.filter fun p =>
    decide (p.destination_id = dest_id ∧ p.status = "Published" ∧
      window_start ≤ p.updated_at ∧ p.updated_at < now)).length

/-- Strict FIFO order on pages: older `created_at` first, ties broken by
lower `id` (insertion order). -/
def olderFIFO (p q : Page) : Bool :=
  decide (p.created_at < q.created_at ∨
    (p.created_at = q.created_at ∧ p.id < q.id))

/-- Keep the FIFO-least of an accumulator and one more candidate. -/
def pickOlder (acc : Option Page) (p : Page) : Option Page :=
  match acc with
  | none => some p
  | some q => if olderFIFO p q then some p else some q

/-- Modelled from the spec: `get_next_ready_page` is called at
`src/publisher.py` line 69 but absent from `src/database.py`.  Per §4.2
step 2 it fetches the single oldest-created WorkItem with
`status == ContentReady` for the destination, ties broken by lowest
identity (first-in-first-out), and nothing when no such item exists. -/
def get_next_ready_page (db : List Page) (dest_id : Nat) : Option Page :=
  (db.filter fun p =>
    decide (p.destination_id = dest_id ∧ p.status = "ContentReady")).foldl
    pickOlder none

/-- The per-campaign body of the `for camp in campaigns` loop of
`run_drip_cycle` in `src/publisher.py` (lines 59-81):

1. if `today_count >= limit`, skip the campaign (`continue`);
2. otherwise fetch the next ready page; if none, skip;
3. otherwise deliver; on success run `update_page_status(id, 'Published')`
   then `update_live_url(id, live_url)`; on failure mutate nothing.

`deliver` is the environment: the outcome of the `requests.post` call for
a given page and campaign.  The `time.sleep(10)` pacing delay after a
success does not touch the store and is not modelled. -/
def processCampaign (deliver : Page → Campaign → HttpOutcome)
    (window_start now : Nat) (db : List Page) (camp : Campaign) : List Page :=
  let today_count := get_published_count_today db window_start now camp.id
  let limit := camp.drip_rate_per_day
  if today_count ≥ limit then db
  else
    match get_next_ready_page db camp.id with
    | some next_page =>
        let r := post_to_wordpress (deliver next_page camp)
        if r.1 then
          update_live_url (update_page_status db next_page.id "Published" now)
            next_page.id r.2 now
        else db
    | none => db

/-- `run_drip_cycle` from `src/publisher.py` (lines 53-81): one dispatch
cycle over the active campaigns in registry order, threading the Work
Item Store state through the per-campaign loop body. -/
def run_drip_cycle (deliver : Page → Campaign → HttpOutcome)
    (window_start now : Nat) (registry : List Campaign)
    (db : List Page) : List Page :=
  (get_active_campaigns registry).foldl (processCampaign deliver window_start now) db

/-- Number of pages of a destination currently in status `Published`. -/
def publishedOf (db : List Page) (dest_id : Nat) : Nat :=
  (db.filter fun p =>
    decide (p.destination_id = dest_id ∧ p.status = "Published")).length

/-- The spec's store invariant (§3): published location is set if and
only if the status is `Published`.  (The schema has no dedicated publish
timestamp column, so the location is the invariant's checkable part.) -/
def publishInvariant (p : Page) : Prop :=
  p.live_url.isSome ↔ p.status = "Published"

instance (p : Page) : Decidable (publishInvariant p) := by
  unfold publishInvariant; infer_instance

/-! ## FIFO selection lemmas -/

lemma olderFIFO_irrefl (p : Page) : olderFIFO p p = false := by
  simp [olderFIFO]

lemma olderFIFO_trans {p q r : Page} (h1 : olderFIFO p q = true)
    (h2 : olderFIFO q r = true) : olderFIFO p r = true := by
  simp only [olderFIFO, decide_eq_true_eq] at *
  omega

lemma olderFIFO_false_trans {p q r : Page} (h1 : olderFIFO p q = false)
    (h2 : olderFIFO q r = false) : olderFIFO p r = false := by
  simp only [olderFIFO, decide_eq_false_iff_not] at *
  omega

lemma pickOlder_ne_none (acc : Option Page) (p : Page) :
    pickOlder acc p ≠ none := by
  cases acc with
  | none => simp [pickOlder]
  | some q =>
      simp only [pickOlder]
      split <;> simp

lemma foldl_pickOlder_eq_none {l : List Page} {acc : Option Page}
    (h : l.foldl pickOlder acc = none) : acc = none ∧ l = [] := by
  induction l generalizing acc with
  | nil => exact ⟨h, rfl⟩
  | cons p t ih =>
      rw [List.foldl_cons] at h
      exact absurd (ih h).1 (pickOlder_ne_none acc p)

lemma foldl_pickOlder_min {l : List Page} {acc : Option Page} {r : Page}
    (h : l.foldl pickOlder acc = some r) :
    (acc = some r ∨ r ∈ l) ∧ (∀ x ∈ l, olderFIFO x r = false) ∧
      (∀ a, acc = some a → olderFIFO a r = false) := by
  induction l generalizing acc with
  | nil =>
      simp only [List.foldl_nil] at h
      refine ⟨Or.inl h, by simp, ?_⟩
      intro a ha
      rw [h] at ha
      cases Option.some.inj ha
      exact olderFIFO_irrefl r
  | cons p t ih =>
      rw [List.foldl_cons] at h
      obtain ⟨hmem, hmin, hacc⟩ := ih h
      have hp : olderFIFO p r = false := by
        cases hq : acc with
        | none => exact hacc p (by rw [hq]; rfl)
        | some q =>
            by_cases hpq : olderFIFO p q = true
            · exact hacc p (by rw [hq]; simp [pickOlder, hpq])
            · have hq2 : olderFIFO q r = false :=
                hacc q (by rw [hq]; simp [pickOlder, hpq])
              rw [Bool.not_eq_true] at hpq
              exact olderFIFO_false_trans hpq hq2
      refine ⟨?_, ?_, ?_⟩
      · rcases hmem with hm | hm
        · cases hq : acc with
          | none =>
              rw [hq] at hm
              have hpr : p = r := by simpa [pickOlder] using hm
              exact Or.inr (hpr ▸ List.mem_cons_self p t)
          | some q =>
              rw [hq] at hm
              by_cases hpq : olderFIFO p q = true
              · have hpr : p = r := by simpa [pickOlder, hpq] using hm
                exact Or.inr (hpr ▸ List.mem_cons_self p t)
              · have hqr : q = r := by simpa [pickOlder, hpq] using hm
                subst hqr
                exact Or.inl rfl
        · exact Or.inr (List.mem_cons_of_mem p hm)
      · intro x hx
        rcases List.mem_cons.mp hx with hx | hx
        · exact hx ▸ hp
        · exact hmin x hx
      · intro a ha
        cases hq : acc with
        | none => rw [hq] at ha; simp at ha
        | some q =>
            rw [hq] at ha
            cases Option.some.inj ha
            by_cases hpq : olderFIFO p a = true
            · by_cases har : olderFIFO a r = true
              · have := olderFIFO_trans hpq har
                rw [hp] at this
                cases this
              · rwa [Bool.not_eq_true] at har
            · exact hacc a (by rw [hq]; simp [pickOlder, hpq])

/-! ## Selection and cycle-step lemmas -/

lemma get_next_ready_page_some {db : List Page} {dest : Nat} {r : Page}
    (h : get_next_ready_page db dest = some r) :
    r ∈ db ∧ r.destination_id = dest ∧ r.status = "ContentReady" ∧
      ∀ x ∈ db, x.destination_id = dest → x.status = "ContentReady" →
        olderFIFO x r = false := by
  unfold get_next_ready_page at h
  obtain ⟨hmem, hmin, -⟩ := foldl_pickOlder_min h
  rcases hmem with hm | hm
  · simp at hm
  · obtain ⟨hdb, hprop⟩ := List.mem_filter.mp hm
    rw [decide_eq_true_eq] at hprop
    refine ⟨hdb, hprop.1, hprop.2, ?_⟩
    intro x hx hxd hxs
    exact hmin x (List.mem_filter.mpr ⟨hx, by rw [decide_eq_true_eq]; exact ⟨hxd, hxs⟩⟩)

lemma get_next_ready_page_none {db : List Page} {dest : Nat}
    (h : get_next_ready_page db dest = none) :
    ∀ x ∈ db, ¬(x.destination_id = dest ∧ x.status = "ContentReady") := by
  unfold get_next_ready_page at h
  have hfe := (foldl_pickOlder_eq_none h).2
  intro x hx hprop
  have : x ∈ db.filter fun p =>
      decide (p.destination_id = dest ∧ p.status = "ContentReady") :=
    List.mem_filter.mpr ⟨hx, by rw [decide_eq_true_eq]; exact hprop⟩
  rw [hfe] at this
  exact absurd this (List.not_mem_nil x)

lemma get_next_ready_page_exists {db : List Page} {dest : Nat} {p : Page}
    (hp : p ∈ db) (hd : p.destination_id = dest) (hs : p.status = "ContentReady") :
    ∃ r, get_next_ready_page db dest = some r := by
  cases h : get_next_ready_page db dest with
  | some r => exact ⟨r, rfl⟩
  | none => exact absurd ⟨hd, hs⟩ (get_next_ready_page_none h p hp)

lemma processCampaign_quota {deliver : Page → Campaign → HttpOutcome}
    {ws now : Nat} {db : List Page} {camp : Campaign}
    (h : get_published_count_today db ws now camp.id ≥ camp.drip_rate_per_day) :
    processCampaign deliver ws now db camp = db := by
  simp [processCampaign, h]

lemma processCampaign_empty {deliver : Page → Campaign → HttpOutcome}
    {ws now : Nat} {db : List Page} {camp : Campaign}
    (h : get_next_ready_page db camp.id = none) :
    processCampaign deliver ws now db camp = db := by
  by_cases hq : get_published_count_today db ws now camp.id ≥ camp.drip_rate_per_day
  · simp [processCampaign, hq]
  · simp [processCampaign, hq, h]

lemma processCampaign_fail {deliver : Page → Campaign → HttpOutcome}
    {ws now : Nat} {db : List Page} {camp : Campaign} {p : Page}
    (hsel : get_next_ready_page db camp.id = some p)
    (hfail : (post_to_wordpress (deliver p camp)).1 = false) :
    processCampaign deliver ws now db camp = db := by
  by_cases hq : get_published_count_today db ws now camp.id ≥ camp.drip_rate_per_day
  · simp [processCampaign, hq]
  · simp [processCampaign, hq, hsel, hfail]

lemma processCampaign_success {deliver : Page → Campaign → HttpOutcome}
    {ws now : Nat} {db : List Page} {camp : Campaign} {p : Page}
    (hq : get_published_count_today db ws now camp.id < camp.drip_rate_per_day)
    (hsel : get_next_ready_page db camp.id = some p)
    (hsucc : (post_to_wordpress (deliver p camp)).1 = true) :
    processCampaign deliver ws now db camp =
      update_live_url (update_page_status db p.id "Published" now) p.id
        (post_to_wordpress (deliver p camp)).2 now := by
  simp [processCampaign, Nat.not_le.mpr hq, hsel, hsucc]

lemma processCampaign_all_fail {deliver : Page → Campaign → HttpOutcome}
    {ws now : Nat} {db : List Page} {camp : Campaign}
    (hfail : ∀ p, (post_to_wordpress (deliver p camp)).1 = false) :
    processCampaign deliver ws now db camp = db := by
  cases hsel : get_next_ready_page db camp.id with
  | none => exact processCampaign_empty hsel
  | some p => exact processCampaign_fail hsel (hfail p)

lemma run_drip_cycle_cons_active {deliver : Page → Campaign → HttpOutcome}
    {ws now : Nat} {camp : Campaign} {rest : List Campaign} {db : List Page}
    (hA : camp.active = true) :
    run_drip_cycle deliver ws now (camp :: rest) db =
      run_drip_cycle deliver ws now rest (processCampaign deliver ws now db camp) := by
  simp [run_drip_cycle, get_active_campaigns, List.filter_cons, hA]

/-! ## The success path as a single row rewrite, and counting lemmas -/

/-- The combined effect on one row of `update_page_status(id, 'Published')`
followed by `update_live_url(id, live_url)` in the success branch of
`run_drip_cycle`. -/
def publishRow (pid : Nat) (loc : Option String) (now : Nat) (p : Page) : Page :=
  if p.id = pid then
    { p with status := "Published", live_url := loc, updated_at := now }
  else p

lemma list_map_ext {α β : Type} {f g : α → β} (h : ∀ x, f x = g x)
    (l : List α) : l.map f = l.map g := by
  rw [show f = g from funext h]

lemma publish_pair_eq_map (db : List Page) (pid : Nat) (loc : Option String)
    (now : Nat) :
    update_live_url (update_page_status db pid "Published" now) pid loc now =
      db.map (publishRow pid loc now) := by
  unfold update_live_url update_page_status
  rw [List.map_map]
  refine list_map_ext (fun p => ?_) db
  by_cases hp : p.id = pid <;> simp [Function.comp, publishRow, hp]

lemma publishRow_id (pid : Nat) (loc : Option String) (now : Nat) (p : Page) :
    (publishRow pid loc now p).id = p.id := by
  unfold publishRow
  split <;> rfl

lemma countP_map_eq {Q : Page → Bool} {f : Page → Page} {db : List Page}
    (h : ∀ p ∈ db, Q (f p) = Q p) : (db.map f).countP Q = db.countP Q := by
  induction db with
  | nil => rfl
  | cons p t ih =>
      simp only [List.map_cons, List.countP_cons]
      rw [h p (List.mem_cons_self p t),
        ih (fun x hx => h x (List.mem_cons_of_mem p hx))]

lemma countP_map_le (Q : Page → Bool) (pid : Nat) (f : Page → Page)
    (db : List Page) (h : ∀ p, p.id ≠ pid → f p = p) :
    (db.map f).countP Q ≤ db.countP Q + db.countP (fun x => x.id == pid) := by
  induction db with
  | nil => simp
  | cons p t ih =>
      simp only [List.map_cons, List.countP_cons]
      by_cases hp : p.id = pid
      · have hpp : (p.id == pid) = true := by simp [hp]
        rw [hpp]
        have h1 : (if Q (f p) then 1 else 0) ≤ 1 := by split <;> simp
        have h2 : (if (true = true) then 1 else 0) = 1 := by decide
        rw [h2]
        omega
      · have hpp : (p.id == pid) = false := by simp [hp]
        rw [h p hp, hpp]
        omega

lemma publishedOf_eq_countP (db : List Page) (d : Nat) :
    publishedOf db d =
      db.countP (fun p => decide (p.destination_id = d ∧ p.status = "Published")) := by
  rw [publishedOf, List.countP_eq_length_filter]

lemma countP_id_le_one {db : List Page} (hnd : (db.map Page.id).Nodup)
    (pid : Nat) : db.countP (fun x => x.id == pid) ≤ 1 := by
  induction db with
  | nil => simp
  | cons p t ih =>
      rw [List.map_cons, List.nodup_cons] at hnd
      rw [List.countP_cons]
      by_cases hp : p.id = pid
      · have hz : t.countP (fun x => x.id == pid) = 0 := by
          rw [List.countP_eq_zero]
          intro x hx hxe
          rw [beq_iff_eq] at hxe
          exact hnd.1 (by rw [hp, ← hxe]; exact List.mem_map_of_mem Page.id hx)
        simp [hz, hp]
      · have hpp : (p.id == pid) = false := by simp [hp]
        rw [hpp]
        simpa using ih hnd.2

lemma nodup_id_inj {db : List Page} (hnd : (db.map Page.id).Nodup) {a b : Page}
    (ha : a ∈ db) (hb : b ∈ db) (hid : a.id = b.id) : a = b :=
  List.inj_on_of_nodup_map hnd ha hb hid

lemma map_id_publishRow (db : List Page) (pid : Nat) (loc : Option String)
    (now : Nat) : (db.map (publishRow pid loc now)).map Page.id = db.map Page.id := by
  rw [List.map_map]
  exact list_map_ext (fun p => publishRow_id pid loc now p) db

lemma processCampaign_map_id (deliver : Page → Campaign → HttpOutcome)
    (ws now : Nat) (db : List Page) (camp : Campaign) :
    (processCampaign deliver ws now db camp).map Page.id = db.map Page.id := by
  by_cases hq : get_published_count_today db ws now camp.id ≥ camp.drip_rate_per_day
  · rw [processCampaign_quota hq]
  · cases hsel : get_next_ready_page db camp.id with
    | none => rw [processCampaign_empty hsel]
    | some p =>
        by_cases hsucc : (post_to_wordpress (deliver p camp)).1 = true
        · rw [processCampaign_success (Nat.not_le.mp hq) hsel hsucc,
            publish_pair_eq_map, map_id_publishRow]
        · rw [processCampaign_fail hsel (by simpa using hsucc)]

lemma processCampaign_publishedOf_le (deliver : Page → Campaign → HttpOutcome)
    (ws now : Nat) (db : List Page) (camp : Campaign) (D : Nat)
    (hnd : (db.map Page.id).Nodup) :
    publishedOf (processCampaign deliver ws now db camp) D ≤ publishedOf db D + 1 := by
  by_cases hq : get_published_count_today db ws now camp.id ≥ camp.drip_rate_per_day
  · rw [processCampaign_quota hq]; omega
  · cases hsel : get_next_ready_page db camp.id with
    | none => rw [processCampaign_empty hsel]; omega
    | some p =>
        by_cases hsucc : (post_to_wordpress (deliver p camp)).1 = true
        · rw [processCampaign_success (Nat.not_le.mp hq) hsel hsucc,
            publish_pair_eq_map, publishedOf_eq_countP, publishedOf_eq_countP]
          have hb := countP_map_le
            (fun x => decide (x.destination_id = D ∧ x.status = "Published"))
            p.id (publishRow p.id (post_to_wordpress (deliver p camp)).2 now)
            db (fun x hx => by simp [publishRow, hx])
          have hc := countP_id_le_one hnd p.id
          omega
        · rw [processCampaign_fail hsel (by simpa using hsucc)]; omega

lemma processCampaign_publishedOf_other (deliver : Page → Campaign → HttpOutcome)
    (ws now : Nat) (db : List Page) (camp : Campaign) (D : Nat)
    (hD : camp.id ≠ D) (hnd : (db.map Page.id).Nodup) :
    publishedOf (processCampaign deliver ws now db camp) D = publishedOf db D := by
  by_cases hq : get_published_count_today db ws now camp.id ≥ camp.drip_rate_per_day
  · rw [processCampaign_quota hq]
  · cases hsel : get_next_ready_page db camp.id with
    | none => rw [processCampaign_empty hsel]
    | some p =>
        by_cases hsucc : (post_to_wordpress (deliver p camp)).1 = true
        · rw [processCampaign_success (Nat.not_le.mp hq) hsel hsucc,
            publish_pair_eq_map, publishedOf_eq_countP, publishedOf_eq_countP]
          obtain ⟨hpmem, hpd, -, -⟩ := get_next_ready_page_some hsel
          refine countP_map_eq (fun x hx => ?_)
          by_cases hxid : x.id = p.id
          · have hxp : x = p := nodup_id_inj hnd hx hpmem hxid
            subst hxp
            simp [publishRow, hpd, hD]
          · simp [publishRow, hxid]
        · rw [processCampaign_fail hsel (by simpa using hsucc)]

lemma foldl_publishedOf_untouched (deliver : Page → Campaign → HttpOutcome)
    (ws now : Nat) (camps : List Campaign) (db : List Page) (D : Nat)
    (hD : ∀ c ∈ camps, c.id ≠ D) (hnd : (db.map Page.id).Nodup) :
    publishedOf (camps.foldl (processCampaign deliver ws now) db) D =
      publishedOf db D := by
  induction camps generalizing db with
  | nil => rfl
  | cons c cs ih =>
      rw [List.foldl_cons,
        ih (processCampaign deliver ws now db c)
          (fun c' hc' => hD c' (List.mem_cons_of_mem c hc'))
          (by rw [processCampaign_map_id]; exact hnd),
        processCampaign_publishedOf_other deliver ws now db c D
          (hD c (List.mem_cons_self c cs)) hnd]

lemma foldl_publishedOf_le (deliver : Page → Campaign → HttpOutcome)
    (ws now : Nat) (camps : List Campaign) (db : List Page) (D : Nat)
    (hnd : (db.map Page.id).Nodup)
    (honce : (camps.filter fun c => c.id == D).length ≤ 1) :
    publishedOf (camps.foldl (processCampaign deliver ws now) db) D ≤
      publishedOf db D + 1 := by
  induction camps generalizing db with
  | nil => simp
  | cons c cs ih =>
      rw [List.foldl_cons]
      by_cases hc : c.id = D
      · have hfc : ((c :: cs).filter fun x => x.id == D).length =
            (cs.filter fun x => x.id == D).length + 1 := by
          simp [List.filter_cons, hc]
        have hcs : ∀ c' ∈ cs, c'.id ≠ D := by
          intro c' hc' he
          have hmem : c' ∈ cs.filter fun x => x.id == D :=
            List.mem_filter.mpr ⟨hc', by simp [he]⟩
          have hpos : 0 < (cs.filter fun x => x.id == D).length :=
            List.length_pos.mpr (List.ne_nil_of_mem hmem)
          omega
        rw [foldl_publishedOf_untouched deliver ws now cs _ D hcs
          (by rw [processCampaign_map_id]; exact hnd)]
        exact processCampaign_publishedOf_le deliver ws now db c D hnd
      · have hbeq : (c.id == D) = false := by simp [hc]
        have honce' : (cs.filter fun x => x.id == D).length ≤ 1 := by
          rw [List.filter_cons, hbeq] at honce
          simpa using honce
        calc publishedOf (cs.foldl (processCampaign deliver ws now)
                (processCampaign deliver ws now db c)) D
            ≤ publishedOf (processCampaign deliver ws now db c) D + 1 :=
              ih _ (by rw [processCampaign_map_id]; exact hnd) honce'
          _ = publishedOf db D + 1 := by
              rw [processCampaign_publishedOf_other deliver ws now db c D hc hnd]

/-! ## Concrete store and registry rows used by the witnesses -/

/-- A concrete `pages` row with the given identity, destination, creation
time and status; all other columns are fixed sample data. -/
def mkPage (i dest created : Nat) (status : String) : Page :=
  { id := i, destination_id := dest, city := "Newark", state := some "NJ",
    keyword := some "rehab newark", page_type := "Spoke", parent_hub_id := none,
    wiki_url := none, status := status, serp_data := none,
    html_content := some "<html></html>", live_url := none,
    created_at := created, updated_at := 0 }

/-- A concrete active campaign with quota 5. -/
def sampleCampaign : Campaign :=
  { id := 1, campaign_name := "trupath-nj", drip_rate_per_day := 5,
    wp_url := "https://site.example", wp_username := "admin",
    wp_app_password := "pw", active := true }

/-- A delivery environment that always answers 201 with a locator. -/
def okDeliver : Page → Campaign → HttpOutcome :=
  fun _ _ =>
    HttpOutcome.resp 201 (some [("link", "https://site.example/rehab-newark/")])

/-! ## Claims -/

/-- Claim C1: for a destination whose published-today count has reached its
quota, the dispatch cycle performs zero Work Item Store mutations for it —
the per-campaign loop body returns the store unchanged — and processing
continues with the remaining destinations from the same store state. -/
theorem quota_reached_skips_destination
    (deliver : Page → Campaign → HttpOutcome) (ws now : Nat)
    (db : List Page) (camp : Campaign) (rest : List Campaign)
    (hA : camp.active = true)
    (hquota : get_published_count_today db ws now camp.id ≥ camp.drip_rate_per_day) :
    processCampaign deliver ws now db camp = db ∧
      run_drip_cycle deliver ws now (camp :: rest) db =
        run_drip_cycle deliver ws now rest db := by
  have h1 : processCampaign deliver ws now db camp = db :=
    processCampaign_quota hquota
  exact ⟨h1, by rw [run_drip_cycle_cons_active hA, h1]⟩

/-- Witness for C1 at a concrete input: quota 0, one published-count-free
store; the campaign is skipped and the cycle over the singleton registry
equals the cycle over the empty registry. -/
theorem quota_reached_skips_destination_witness :
    processCampaign (fun _ _ => HttpOutcome.exn) 0 1 [mkPage 1 1 0 "ContentReady"]
        { sampleCampaign with drip_rate_per_day := 0 } =
      [mkPage 1 1 0 "ContentReady"] ∧
    run_drip_cycle (fun _ _ => HttpOutcome.exn) 0 1
        [{ sampleCampaign with drip_rate_per_day := 0 }]
        [mkPage 1 1 0 "ContentReady"] =
      run_drip_cycle (fun _ _ => HttpOutcome.exn) 0 1 []
        [mkPage 1 1 0 "ContentReady"] :=
  quota_reached_skips_destination (fun _ _ => HttpOutcome.exn) 0 1
    [mkPage 1 1 0 "ContentReady"] { sampleCampaign with drip_rate_per_day := 0 }
    [] rfl (Nat.zero_le _)

/-- Claim C2: when the item selected for a destination is delivered
successfully, after the cycle step that item's row has status `Published`,
its `live_url` equals exactly the locator the delivery client returned,
and its timestamp (`updated_at`, the only timestamp column the store
maintains) is set to the cycle's current time. -/
theorem success_marks_item_published
    (deliver : Page → Campaign → HttpOutcome) (ws now : Nat)
    (db : List Page) (camp : Campaign) (p : Page)
    (hquota : get_published_count_today db ws now camp.id < camp.drip_rate_per_day)
    (hsel : get_next_ready_page db camp.id = some p)
    (hsucc : (post_to_wordpress (deliver p camp)).1 = true) :
    (∃ q ∈ processCampaign deliver ws now db camp, q.id = p.id) ∧
      ∀ q ∈ processCampaign deliver ws now db camp, q.id = p.id →
        q.status = "Published" ∧
          q.live_url = (post_to_wordpress (deliver p camp)).2 ∧
          q.updated_at = now := by
  obtain ⟨hpmem, -, -, -⟩ := get_next_ready_page_some hsel
  rw [processCampaign_success hquota hsel hsucc, publish_pair_eq_map]
  constructor
  · exact ⟨publishRow p.id (post_to_wordpress (deliver p camp)).2 now p,
      List.mem_map_of_mem _ hpmem, publishRow_id _ _ _ p⟩
  · intro q hq hqid
    obtain ⟨x, hx, hxq⟩ := List.mem_map.mp hq
    subst hxq
    by_cases hxid : x.id = p.id
    · simp [publishRow, hxid]
    · rw [publishRow_id] at hqid
      exact absurd hqid hxid

/-- Witness for C2: a singleton store with one ContentReady item, a 201
response carrying a locator; the step publishes the item with that exact
locator. -/
theorem success_marks_item_published_witness :
    (∃ q ∈ processCampaign okDeliver 0 3 [mkPage 1 1 0 "ContentReady"]
        sampleCampaign, q.id = 1) ∧
      ∀ q ∈ processCampaign okDeliver 0 3 [mkPage 1 1 0 "ContentReady"]
          sampleCampaign, q.id = 1 →
        q.status = "Published" ∧
          q.live_url = some "https://site.example/rehab-newark/" ∧
          q.updated_at = 3 :=
  success_marks_item_published okDeliver 0 3 [mkPage 1 1 0 "ContentReady"]
    sampleCampaign (mkPage 1 1 0 "ContentReady") (by decide) (by decide) (by decide)

/-- Claim C3: when delivery of the selected item fails (non-201 response,
unparsable 201 body, or raised exception), the cycle step leaves the Work
Item Store completely unchanged, so the selected item keeps status
`ContentReady`, gains no location and no timestamp, and stays eligible. -/
theorem failure_preserves_item_state
    (deliver : Page → Campaign → HttpOutcome) (ws now : Nat)
    (db : List Page) (camp : Campaign) (p : Page)
    (hsel : get_next_ready_page db camp.id = some p)
    (hfail : (post_to_wordpress (deliver p camp)).1 = false) :
    processCampaign deliver ws now db camp = db ∧
      p ∈ db ∧ p.status = "ContentReady" := by
  obtain ⟨hm, -, hs, -⟩ := get_next_ready_page_some hsel
  exact ⟨processCampaign_fail hsel hfail, hm, hs⟩

/-- Witness for C3: a transport exception leaves the singleton store
unchanged, with the item still ContentReady. -/
theorem failure_preserves_item_state_witness :
    processCampaign (fun _ _ => HttpOutcome.exn) 0 3
        [mkPage 1 1 0 "ContentReady"] sampleCampaign =
      [mkPage 1 1 0 "ContentReady"] ∧
      mkPage 1 1 0 "ContentReady" ∈ [mkPage 1 1 0 "ContentReady"] ∧
      (mkPage 1 1 0 "ContentReady").status = "ContentReady" :=
  failure_preserves_item_state (fun _ _ => HttpOutcome.exn) 0 3
    [mkPage 1 1 0 "ContentReady"] sampleCampaign (mkPage 1 1 0 "ContentReady")
    (by decide) (by decide)

/-- Claim C4: the item fetched for a destination is the single
oldest-created ContentReady item owned by that destination, ties broken by
lowest identity; in particular with a strictly older ready item I1 present,
a newer item I2 is never selected; and with no ready item the destination
is skipped with no store mutation. -/
theorem fifo_oldest_ready_selected
    (deliver : Page → Campaign → HttpOutcome) (ws now : Nat)
    (db : List Page) (camp : Campaign) :
    (∀ r, get_next_ready_page db camp.id = some r →
        r ∈ db ∧ r.destination_id = camp.id ∧ r.status = "ContentReady" ∧
          ∀ x ∈ db, x.destination_id = camp.id → x.status = "ContentReady" →
            olderFIFO x r = false) ∧
    (∀ i1 i2 : Page, i1 ∈ db → i1.destination_id = camp.id →
        i1.status = "ContentReady" → olderFIFO i1 i2 = true →
        (∃ r, get_next_ready_page db camp.id = some r) ∧
          get_next_ready_page db camp.id ≠ some i2) ∧
    (get_next_ready_page db camp.id = none →
        processCampaign deliver ws now db camp = db) := by
  refine ⟨fun r hr => get_next_ready_page_some hr, ?_,
    fun h => processCampaign_empty h⟩
  intro i1 i2 h1 hd hs hold
  refine ⟨get_next_ready_page_exists h1 hd hs, ?_⟩
  intro hcon
  obtain ⟨-, -, -, hmin⟩ := get_next_ready_page_some hcon
  have hne := hmin i1 h1 hd hs
  rw [hold] at hne
  cases hne

/-- Witness for C4: two ready items for destination 1, created at 0 and 1;
some item is selected and it is never the newer one. -/
theorem fifo_oldest_ready_selected_witness :
    (∃ r, get_next_ready_page
        [mkPage 1 1 0 "ContentReady", mkPage 2 1 1 "ContentReady"] 1 = some r) ∧
      get_next_ready_page
          [mkPage 1 1 0 "ContentReady", mkPage 2 1 1 "ContentReady"] 1 ≠
        some (mkPage 2 1 1 "ContentReady") :=
  (fifo_oldest_ready_selected okDeliver 0 3
      [mkPage 1 1 0 "ContentReady", mkPage 2 1 1 "ContentReady"]
      sampleCampaign).2.1
    (mkPage 1 1 0 "ContentReady") (mkPage 2 1 1 "ContentReady")
    (by decide) (by decide) (by decide) (by decide)

/-- Claim C5: a single invocation of the dispatch cycle transitions at most
one work item per destination to `Published`, however many ContentReady
items the destination has, provided page identities are unique (the
schema's PRIMARY KEY) and the destination occurs at most once among the
active campaigns. -/
theorem at_most_one_publish_per_destination
    (deliver : Page → Campaign → HttpOutcome) (ws now : Nat)
    (registry : List Campaign) (db : List Page) (D : Nat)
    (hnd : (db.map Page.id).Nodup)
    (honce : ((get_active_campaigns registry).filter fun c => c.id == D).length ≤ 1) :
    publishedOf (run_drip_cycle deliver ws now registry db) D ≤
      publishedOf db D + 1 := by
  unfold run_drip_cycle
  exact foldl_publishedOf_le deliver ws now (get_active_campaigns registry) db D
    hnd honce

/-- Witness for C5: five ContentReady items for destination 1 and a
successful delivery environment; a single cycle publishes at most one. -/
theorem at_most_one_publish_per_destination_witness :
    publishedOf
        (run_drip_cycle okDeliver 0 3 [sampleCampaign]
          [mkPage 1 1 0 "ContentReady", mkPage 2 1 1 "ContentReady",
            mkPage 3 1 2 "ContentReady", mkPage 4 1 3 "ContentReady",
            mkPage 5 1 4 "ContentReady"]) 1 ≤
      publishedOf
          [mkPage 1 1 0 "ContentReady", mkPage 2 1 1 "ContentReady",
            mkPage 3 1 2 "ContentReady", mkPage 4 1 3 "ContentReady",
            mkPage 5 1 4 "ContentReady"] 1 + 1 :=
  at_most_one_publish_per_destination okDeliver 0 3 [sampleCampaign]
    [mkPage 1 1 0 "ContentReady", mkPage 2 1 1 "ContentReady",
      mkPage 3 1 2 "ContentReady", mkPage 4 1 3 "ContentReady",
      mkPage 5 1 4 "ContentReady"] 1 (by decide) (by decide)

/-- Counterexample to claim C7 as stated: the store operations do not all
maintain the publish invariant.  Starting from a row satisfying the
invariant (ContentReady, no live_url), the store operation
`update_page_status(id, 'Published')` — the very first call of
`run_drip_cycle`'s success path — produces a row with status `Published`
and no published location, violating the if-and-only-if. -/
theorem publish_invariant_not_preserved :
    publishInvariant (mkPage 1 1 0 "ContentReady") ∧
      ∃ q ∈ update_page_status [mkPage 1 1 0 "ContentReady"] 1 "Published" 5,
        q.status = "Published" ∧ q.live_url = none ∧ ¬ publishInvariant q := by
  decide

/-- Claim C7 (amended): the store maintains only the forward direction of
the invariant along the location-recording operation: whenever
`update_live_url` records a published location for a row, that same
statement forces the row's status to `Published` (and stamps
`updated_at`); the converse direction is not maintained
(`update_page_status` can set `Published` without a location), and the
store has no dedicated publish-timestamp column — `updated_at` is
rewritten by every update operation rather than exactly once. -/
theorem publish_location_forces_published_status
    (db : List Page) (pid : Nat) (url : Option String) (t : Nat) :
    ∀ q ∈ update_live_url db pid url t, q.id = pid →
      q.status = "Published" ∧ q.live_url = url ∧ q.updated_at = t := by
  intro q hq hid
  unfold update_live_url at hq
  obtain ⟨x, hx, hxq⟩ := List.mem_map.mp hq
  subst hxq
  by_cases hxid : x.id = pid
  · simp [hxid]
  · rw [if_neg hxid] at hid
    exact absurd hid hxid

/-- Witness for the amended C7 at a concrete row. -/
theorem publish_location_forces_published_status_witness :
    (publishRow 1 (some "https://site.example/rehab-newark/") 7
        (mkPage 1 1 0 "ContentReady")).status = "Published" ∧
      (publishRow 1 (some "https://site.example/rehab-newark/") 7
          (mkPage 1 1 0 "ContentReady")).live_url =
        some "https://site.example/rehab-newark/" ∧
      (publishRow 1 (some "https://site.example/rehab-newark/") 7
          (mkPage 1 1 0 "ContentReady")).updated_at = 7 :=
  publish_location_forces_published_status [mkPage 1 1 0 "ContentReady"] 1
    (some "https://site.example/rehab-newark/") 7
    (publishRow 1 (some "https://site.example/rehab-newark/") 7
      (mkPage 1 1 0 "ContentReady"))
    (by decide) (by decide)

/-- Claim C8: every delivery failure kind is converted by the
`try`/`except` of `post_to_wordpress` into the per-destination outcome
`(False, None)` — a raised transport exception, a non-201 response, and an
unparsable 201 body alike — and a destination all of whose deliveries fail
leaves the store unchanged, so the remaining destinations of the cycle are
processed exactly as they would have been without it. -/
theorem delivery_failures_confined
    (deliver : Page → Campaign → HttpOutcome) (ws now : Nat)
    (camp : Campaign) (rest : List Campaign) (db : List Page) :
    post_to_wordpress HttpOutcome.exn = (false, none) ∧
      (∀ code body, code ≠ 201 →
        post_to_wordpress (HttpOutcome.resp code body) = (false, none)) ∧
      post_to_wordpress (HttpOutcome.resp 201 none) = (false, none) ∧
      (camp.active = true →
        (∀ p, (post_to_wordpress (deliver p camp)).1 = false) →
        run_drip_cycle deliver ws now (camp :: rest) db =
          run_drip_cycle deliver ws now rest db) := by
  refine ⟨rfl, ?_, rfl, ?_⟩
  · intro code body hc
    simp [post_to_wordpress, hc]
  · intro hA hfail
    rw [run_drip_cycle_cons_active hA, processCampaign_all_fail hfail]

/-- Witness for C8: an always-raising delivery environment; the cycle over
a registry starting with the failing campaign equals the cycle over the
rest. -/
theorem delivery_failures_confined_witness :
    run_drip_cycle (fun _ _ => HttpOutcome.exn) 0 3 [sampleCampaign]
        [mkPage 1 1 0 "ContentReady"] =
      run_drip_cycle (fun _ _ => HttpOutcome.exn) 0 3 []
        [mkPage 1 1 0 "ContentReady"] :=
  (delivery_failures_confined (fun _ _ => HttpOutcome.exn) 0 3 sampleCampaign []
      [mkPage 1 1 0 "ContentReady"]).2.2.2 rfl (fun _ => rfl)

/-- Counterexample to claim C9 as stated: a 201 response whose JSON body
parses but carries no locator field is reported as a success by
`post_to_wordpress` (with a `None` locator), where the claim requires it
to be a failure. -/
theorem delivery_success_without_locator :
    (post_to_wordpress
        (HttpOutcome.resp 201 (some [("title", "rehab newark")]))).1 = true ∧
      (post_to_wordpress
          (HttpOutcome.resp 201 (some [("title", "rehab newark")]))).2 = none ∧
      ([("title", "rehab newark")] : List (String × String)).lookup "link" =
        none := by
  decide

/-- Claim C9 (amended): the Delivery Client reports success if and only if
the HTTP status is 201 and the body parses as JSON; on a parsed 201 body
it returns the body's locator (`link`) field verbatim — which is `None`
when the field is absent — and every non-201 status, unparsable 201 body,
and raised transport exception is reported as a failure with no locator. -/
theorem delivery_result_classification (o : HttpOutcome) :
    ((post_to_wordpress o).1 = true ↔
        ∃ kvs, o = HttpOutcome.resp 201 (some kvs)) ∧
      (∀ kvs, o = HttpOutcome.resp 201 (some kvs) →
        (post_to_wordpress o).2 = kvs.lookup "link") ∧
      ((post_to_wordpress o).1 = false → (post_to_wordpress o).2 = none) := by
  cases o with
  | exn => simp [post_to_wordpress]
  | resp code body =>
      by_cases hc : code = 201
      · subst hc
        cases body with
        | some kvs =>
            refine ⟨⟨fun _ => ⟨kvs, rfl⟩, fun _ => rfl⟩, ?_, ?_⟩
            · intro kvs' he
              injection he with h1 h2
              injection h2 with h3
              rw [← h3]
              simp [post_to_wordpress]
            · intro hfalse
              simp [post_to_wordpress] at hfalse
        | none => simp [post_to_wordpress]
      · simp [post_to_wordpress, hc]

/-- Witness for the amended C9: a 201 body carrying a `link` key yields
success with exactly that locator. -/
theorem delivery_result_classification_witness :
    (post_to_wordpress (HttpOutcome.resp 201
        (some [("link", "https://site.example/rehab-newark/")]))).2 =
      ([("link", "https://site.example/rehab-newark/")] :
        List (String × String)).lookup "link" :=
  (delivery_result_classification (HttpOutcome.resp 201
      (some [("link", "https://site.example/rehab-newark/")]))).2.1
    [("link", "https://site.example/rehab-newark/")] rfl

/-- Claim C10: `update_live_url` keeps the store's length, leaves every row
whose id differs from the target unchanged, and on the target row mutates
exactly `live_url` (to the given URL), `status` (unconditionally to
`Published`, whatever its prior value) and `updated_at`, preserving every
other column. -/
theorem update_live_url_frame (db : List Page) (pid : Nat) (url : Option String)
    (t : Nat) :
    (update_live_url db pid url t).length = db.length ∧
      ∀ i : Fin db.length, ∃ q,
        (update_live_url db pid url t).get? i.1 = some q ∧
          ((db.get i).id ≠ pid → q = db.get i) ∧
          ((db.get i).id = pid →
            q.id = (db.get i).id ∧ q.destination_id = (db.get i).destination_id ∧
              q.city = (db.get i).city ∧ q.state = (db.get i).state ∧
              q.keyword = (db.get i).keyword ∧
              q.page_type = (db.get i).page_type ∧
              q.parent_hub_id = (db.get i).parent_hub_id ∧
              q.wiki_url = (db.get i).wiki_url ∧
              q.serp_data = (db.get i).serp_data ∧
              q.html_content = (db.get i).html_content ∧
              q.created_at = (db.get i).created_at ∧
              q.live_url = url ∧ q.status = "Published" ∧ q.updated_at = t) := by
  constructor
  · simp [update_live_url]
  · intro i
    have hget : (update_live_url db pid url t).get? i.1 =
        some (publishRow pid url t (db.get i)) := by
      unfold update_live_url publishRow
      rw [List.get?_map, List.get?_eq_get i.isLt]
      rfl
    refine ⟨_, hget, ?_, ?_⟩
    · intro hne
      unfold publishRow
      rw [if_neg hne]
    · intro heq
      unfold publishRow
      rw [if_pos heq]
      exact ⟨rfl, rfl, rfl, rfl, rfl, rfl, rfl, rfl, rfl, rfl, rfl, rfl, rfl, rfl⟩

/-- Witness for C10: a Pending row — not ContentReady — is forced to
`Published` by recording a live URL, all other columns intact. -/
theorem update_live_url_frame_witness :
    (update_live_url [mkPage 1 1 0 "Pending"] 1
          (some "https://site.example/rehab-newark/") 9).length = 1 ∧
      ∃ q, (update_live_url [mkPage 1 1 0 "Pending"] 1
            (some "https://site.example/rehab-newark/") 9).get? 0 = some q ∧
        q.status = "Published" ∧
          q.live_url = some "https://site.example/rehab-newark/" ∧
          q.updated_at = 9 ∧ q.city = "Newark" := by
  have h := update_live_url_frame [mkPage 1 1 0 "Pending"] 1
    (some "https://site.example/rehab-newark/") 9
  refine ⟨h.1, ?_⟩
  obtain ⟨q, hq, -, hfields⟩ := h.2 ⟨0, by decide⟩
  obtain ⟨-, -, hcity, -, -, -, -, -, -, -, -, hurl, hstat, hupd⟩ :=
    hfields (by decide)
  exact ⟨q, hq, hstat, hurl, hupd, by rw [hcity]; rfl⟩
